import Mathlib

/-!
Verification of the zerokv key-value store abstraction (repository
rawbytedev/dbmodel).  The Go sources under `badgerdb/`, `pebbledb/` and the
older badgerdb variant (file of unknown name, `src/unnamed/part_002`) are
shallowly embedded below: keys and values are byte lists, the engine store is
an association list, stateful methods are explicit state-passing functions,
and Go's three observable outcomes (normal return, error return, runtime
panic) are the three constructors of `Outcome`.
-/

namespace ZeroKV

/-- Keys and values are opaque byte sequences (`[]byte` in Go). -/
abbrev Bytes := List Nat

/-- Canonical error values observable through the adapter layer.
`ctxCanceled` is `context.Canceled`, `keyNotFound` the engine's
not-found error, `discardedTxn` Badger's "This transaction has been
discarded. Create a new one" returned by a flushed `WriteBatch`, and
`ioErr` an opaque engine-level fault. -/
inductive GoError where
  | ctxCanceled
  | keyNotFound
  | discardedTxn
  | ioErr (code : Nat)
deriving DecidableEq, Repr

/-- A Go context, reduced to the one observable the code consults:
whether `ctx.Err()` is non-nil at operation entry. -/
inductive Ctx where
  | live
  | canceled
deriving DecidableEq, Repr

/-- `ctx.Err()`: nil for a live context, `context.Canceled` otherwise. -/
def Ctx.errOf : Ctx → Option GoError
  | .live => none
  | .canceled => some .ctxCanceled

/-- Result of a Go call: a normal return, an error return, or a runtime
panic (abrupt call-stack termination). -/
inductive Outcome (α : Type) where
  | ok (a : α)
  | err (e : GoError)
  | panics (msg : String)
deriving DecidableEq, Repr

/-- The engine's key-value store, as an association list (first binding
of a key wins on lookup). -/
abbrev Store := List (Bytes × Bytes)

/-- Engine point lookup. -/
def storeGet : Store → Bytes → Option Bytes
  | [], _ => none
  | (k', v) :: rest, k => if k' = k then some v else storeGet rest k

/-- Engine point delete: removes every binding of the key (deleting an
absent key leaves the store unchanged). -/
def storeDelete (s : Store) (k : Bytes) : Store :=
  s.filter (fun e => !decide (e.1 = k))

/-- Engine point upsert: the new binding shadows any previous one. -/
def storePut (s : Store) (k : Bytes) (v : Bytes) : Store :=
  (k, v) :: storeDelete s k

/-- One staged batch operation (`badger.WriteBatch` / `pebble.Batch`
entries). -/
inductive BatchOp where
  | put (k v : Bytes)
  | del (k : Bytes)
deriving DecidableEq, Repr

def applyOp (s : Store) : BatchOp → Store
  | .put k v => storePut s k v
  | .del k => storeDelete s k

/-- Atomic flush of a staged operation list, in staging order
(last-write-wins per key). -/
def applyOps (s : Store) (ops : List BatchOp) : Store :=
  ops.foldl applyOp s

/-! ## BadgerDB backend (src/badgerdb/badgerdb.go) -/

/-- `BadgerDB` owns one engine handle (modelled by its store contents). -/
structure BadgerDB where
  db : Store
deriving DecidableEq, Repr

/-- `func (b *BadgerDB) Put(ctx, key, value) error`: checks `ctx.Err()`
first, then `txn.Set(key, value)` inside `db.Update`. -/
def BadgerDB.Put (b : BadgerDB) (ctx : Ctx) (key value : Bytes) :
    Outcome Unit × BadgerDB :=
  match ctx.errOf with
  | some e => (.err e, b)
  | none => (.ok (), ⟨storePut b.db key value⟩)

/-- `func (b *BadgerDB) Get(ctx, key) ([]byte, error)`: checks
`ctx.Err()` first; `txn.Get` returns `ErrKeyNotFound` for an absent
key, otherwise the value is copied out (a defensive copy, identity in
this model). -/
def BadgerDB.Get (b : BadgerDB) (ctx : Ctx) (key : Bytes) :
    Outcome Bytes :=
  match ctx.errOf with
  | some e => .err e
  | none =>
    match storeGet b.db key with
    | some v => .ok v
    | none => .err .keyNotFound

/-- `func (b *BadgerDB) Delete(ctx, key) error`: checks `ctx.Err()`
first, then `txn.Delete(key)` inside `db.Update` (Badger's delete of an
absent key succeeds). -/
def BadgerDB.Delete (b : BadgerDB) (ctx : Ctx) (key : Bytes) :
    Outcome Unit × BadgerDB :=
  match ctx.errOf with
  | some e => (.err e, b)
  | none => (.ok (), ⟨storeDelete b.db key⟩)

/-- Engine-side `badger.WriteBatch`: staged operations plus the
discarded flag.  After `Flush`, the underlying transaction is
discarded and every further `Set`/`Delete`/`Flush` returns
`ErrDiscardedTxn` (documented in the repository's ERROR_HANDLING
guide: "This transaction has been discarded. Create a new one"). -/
structure badgerWriteBatch where
  ops : List BatchOp
  discarded : Bool
deriving DecidableEq, Repr

def badgerWriteBatch.set (wb : badgerWriteBatch) (k v : Bytes) :
    Outcome Unit × badgerWriteBatch :=
  if wb.discarded then (.err .discardedTxn, wb)
  else (.ok (), { wb with ops := wb.ops ++ [.put k v] })

def badgerWriteBatch.del (wb : badgerWriteBatch) (k : Bytes) :
    Outcome Unit × badgerWriteBatch :=
  if wb.discarded then (.err .discardedTxn, wb)
  else (.ok (), { wb with ops := wb.ops ++ [.del k] })

/-- `WriteBatch.Flush`: applies every staged operation atomically and
discards the batch; on an already-discarded batch it fails without
touching the store. -/
def badgerWriteBatch.flush (wb : badgerWriteBatch) (s : Store) :
    Outcome Unit × badgerWriteBatch × Store :=
  if wb.discarded then (.err .discardedTxn, wb, s)
  else (.ok (), { ops := [], discarded := true }, applyOps s wb.ops)

/-- `badgerBatch` wraps the engine write batch directly (no extra state
in the adapter). -/
structure badgerBatch where
  batch : badgerWriteBatch
deriving DecidableEq, Repr

/-- `func (b *BadgerDB) Batch() zerokv.Batch`: a fresh engine write
batch. -/
def BadgerDB.Batch (_ : BadgerDB) : badgerBatch :=
  ⟨{ ops := [], discarded := false }⟩

/-- `func (b *badgerBatch) Put(key, value) error`: delegates to
`b.batch.Set`. -/
def badgerBatch.Put (b : badgerBatch) (key value : Bytes) :
    Outcome Unit × badgerBatch :=
  let (r, wb) := b.batch.set key value
  (r, ⟨wb⟩)

/-- `func (b *badgerBatch) Delete(key) error`: delegates to
`b.batch.Delete`. -/
def badgerBatch.Delete (b : badgerBatch) (key : Bytes) :
    Outcome Unit × badgerBatch :=
  let (r, wb) := b.batch.del key
  (r, ⟨wb⟩)

/-- `func (b *badgerBatch) Commit(ctx) error`: checks `ctx.Err()`
first, then `b.batch.Flush()`. -/
def badgerBatch.Commit (b : badgerBatch) (ctx : Ctx) (s : Store) :
    Outcome Unit × badgerBatch × Store :=
  match ctx.errOf with
  | some e => (.err e, b, s)
  | none =>
    let (r, wb, s') := b.batch.flush s
    (r, ⟨wb⟩, s')

/-! ## PebbleDB backend (src/pebbledb/pebbledb.go) -/

/-- `pebbledb` owns one engine handle. -/
structure pebbledb where
  db : Store
deriving DecidableEq, Repr

/-- `func (p *pebbledb) Put(ctx, key, data) error`: calls
`p.db.Set(key, data, pebble.Sync)` directly — the source performs no
context check. -/
def pebbledb.Put (p : pebbledb) (_ctx : Ctx) (key data : Bytes) :
    Outcome Unit × pebbledb :=
  (.ok (), ⟨storePut p.db key data⟩)

/-- `func (p *pebbledb) Get(ctx, key) ([]byte, error)`: calls
`p.db.Get(key)` directly (no context check); Pebble returns
`ErrNotFound` for an absent key. -/
def pebbledb.Get (p : pebbledb) (_ctx : Ctx) (key : Bytes) :
    Outcome Bytes :=
  match storeGet p.db key with
  | some v => .ok v
  | none => .err .keyNotFound

/-- `func (p *pebbledb) Delete(ctx, key) error`: calls
`p.db.Delete(key, pebble.Sync)` directly (no context check). -/
def pebbledb.Delete (p : pebbledb) (_ctx : Ctx) (key : Bytes) :
    Outcome Unit × pebbledb :=
  (.ok (), ⟨storeDelete p.db key⟩)

/-- `pebbleBatch` wraps a `pebble.Batch`.  Pebble's batch, once
committed, panics on any further use (documented in the repository's
ERROR_HANDLING guide: "Attempting Put() after Commit() panics"). -/
structure pebbleBatch where
  ops : List BatchOp
  committed : Bool
deriving DecidableEq, Repr

/-- `func (b *pebbledb) Batch() zerokv.Batch`: a fresh engine batch. -/
def pebbledb.Batch (_ : pebbledb) : pebbleBatch :=
  { ops := [], committed := false }

/-- `func (p *pebbleBatch) Put(key, data) error`: `batch.Set` — panics
if the batch was already committed, otherwise stages the write. -/
def pebbleBatch.Put (b : pebbleBatch) (key data : Bytes) :
    Outcome Unit × pebbleBatch :=
  if b.committed then (.panics "pebble: batch already committed", b)
  else (.ok (), { b with ops := b.ops ++ [.put key data] })

/-- `func (p *pebbleBatch) Delete(key) error`: `batch.Delete` — panics
if the batch was already committed. -/
def pebbleBatch.Delete (b : pebbleBatch) (key : Bytes) :
    Outcome Unit × pebbleBatch :=
  if b.committed then (.panics "pebble: batch already committed", b)
  else (.ok (), { b with ops := b.ops ++ [.del key] })

/-- `func (p *pebbleBatch) Commits(ctx) error` (the source spells the
method `Commits`): `p.batch.Commit(pebble.Sync)` with no context
check; a second commit panics, a first commit applies the staged
operations atomically. -/
def pebbleBatch.Commits (b : pebbleBatch) (_ctx : Ctx) (s : Store) :
    Outcome Unit × pebbleBatch × Store :=
  if b.committed then (.panics "pebble: batch already committed", b, s)
  else (.ok (), { b with committed := true }, applyOps s b.ops)

/-- The Pebble iterator type: the source declares none — every iterator
constructor in pebbledb.go is a placeholder returning nil — so the
interface value returned by `Scan` has no concrete implementation. -/
inductive pebbleIterator : Type
deriving DecidableEq

/-- `func (b *pebbledb) Scan(prefix) zerokv.Iterator`: the body is
`return nil` for every argument. -/
def pebbledb.Scan (_ : pebbledb) (_pfx : Bytes) : Option pebbleIterator :=
  none

/-- Go dynamic dispatch on an interface value: invoking a method on a
nil interface value panics with a nil-pointer dereference; on a
non-nil value it runs the method. -/
def callMethod {ι α : Type} (i : Option ι) (m : ι → α) : Outcome α :=
  match i with
  | some it => .ok (m it)
  | none => .panics "invalid memory address or nil pointer dereference"

/-! ## Badger iterators (src/badgerdb/badgerdb.go and the older
variant in src/unnamed/part_002) -/

/-- Lexicographic byte-string order (Badger's key order): `keyLe a b`
iff `a` is less than or equal to `b` bytewise, a strict prefix being
smaller. -/
def keyLe : Bytes → Bytes → Bool
  | [], _ => true
  | _ :: _, [] => false
  | a :: as, b :: bs =>
    if a < b then true
    else if b < a then false
    else keyLe as bs

/-- `matchesPfx p k` iff key `k` starts with the byte sequence `p`
(the iterator option `Prefix`). -/
def matchesPfx : Bytes → Bytes → Bool
  | [], _ => true
  | _ :: _, [] => false
  | a :: as, b :: bs => decide (a = b) && matchesPfx as bs

/-- Insertion into an ascending key list. -/
def insertAsc (k : Bytes) : List Bytes → List Bytes
  | [] => [k]
  | x :: xs => if keyLe k x then k :: x :: xs else x :: insertAsc k xs

/-- Ascending lexicographic sort of a key list. -/
def sortAsc (ks : List Bytes) : List Bytes :=
  ks.foldr insertAsc []

/-- Result of the engine's `Item().ValueCopy`: either the value bytes
or a retrieval error. -/
abbrev ValRes := Except GoError Bytes

instance : DecidableEq ValRes := fun a b =>
  match a, b with
  | .ok v, .ok w =>
    if h : v = w then .isTrue (by rw [h]) else .isFalse (by simp [h])
  | .ok _, .error _ => .isFalse (by simp)
  | .error _, .ok _ => .isFalse (by simp)
  | .error e, .error f =>
    if h : e = f then .isTrue (by rw [h]) else .isFalse (by simp [h])

/-- Engine-side `badger.Iterator` (forward): the entries visible to the
cursor (keys matching the configured prefix, ascending, each with its
value-retrieval result), the current position, whether `Rewind` has
been called, and whether the cursor was closed.  Before `Rewind` the
cursor is not positioned (`Valid()` is false and `Next` does not
position it); `Close` releases resources without clearing the current
item. -/
structure engineIter where
  entries : List (Bytes × ValRes)
  pos : Nat
  rewound : Bool
  closed : Bool
deriving DecidableEq, Repr

/-- `Iterator.Rewind()`: seek to the first matching entry. -/
def engineIter.rewind (it : engineIter) : engineIter :=
  { it with pos := 0, rewound := true }

/-- `Iterator.Next()`: advance by one when positioned; a never-rewound
cursor stays unpositioned. -/
def engineIter.next (it : engineIter) : engineIter :=
  if it.rewound then { it with pos := it.pos + 1 } else it

/-- `Iterator.Valid()`. -/
def engineIter.valid (it : engineIter) : Bool :=
  it.rewound && decide (it.pos < it.entries.length)

/-- `Iterator.Item()`: the current item, nil when not positioned. -/
def engineIter.item (it : engineIter) : Option (Bytes × ValRes) :=
  if it.valid then it.entries[it.pos]? else none

/-- `Iterator.Close()`. -/
def engineIter.close (it : engineIter) : engineIter :=
  { it with closed := true }

/-- Entries a Badger cursor with option `Prefix = pfx` ranges over:
the store's matching keys in ascending lexicographic order, each
paired with a successful value retrieval of its stored value. -/
def scanEntries (s : Store) (pfx : Bytes) : List (Bytes × ValRes) :=
  (sortAsc ((s.map Prod.fst).filter (matchesPfx pfx))).map
    (fun k => (k, Except.ok ((storeGet s k).getD [])))

/-- Adapter iterator of src/badgerdb/badgerdb.go.  `Option Bytes`
models Go byte-slice results where `none` is the nil slice and
`some []` the non-nil empty slice. -/
structure badgerIterator where
  Iterator : engineIter
  started : Bool
  valid : Bool
  err : List GoError
deriving DecidableEq, Repr

/-- `func (b *BadgerDB) Scan(prefix) zerokv.Iterator`: a fresh cursor
with `Prefix: prefix` over a read transaction. -/
def BadgerDB.Scan (b : BadgerDB) (pfx : Bytes) : badgerIterator :=
  { Iterator := { entries := scanEntries b.db pfx, pos := 0,
                  rewound := false, closed := false },
    started := false, valid := false, err := [] }

/-- `func (it *badgerIterator) Next() bool`: first call rewinds, later
calls advance; caches and returns `Iterator.Valid()`. -/
def badgerIterator.Next (it : badgerIterator) : Bool × badgerIterator :=
  let e := if !it.started then it.Iterator.rewind else it.Iterator.next
  let v := e.valid
  (v, { it with Iterator := e, started := true, valid := v })

/-- `func (it *badgerIterator) Key() []byte`: nil unless the cached
valid flag is set, otherwise `Item().KeyCopy(nil)`. -/
def badgerIterator.Key (it : badgerIterator) : Option Bytes :=
  if !it.valid then none
  else it.Iterator.item.map Prod.fst

/-- `func (it *badgerIterator) Value() []byte`: nil unless valid;
otherwise `Item().ValueCopy(nil)` — on retrieval failure the error is
recorded and the non-nil empty slice is returned.  (When the cached
valid flag is set the engine item is present; the `none` branch is the
unreachable nil-item case.) -/
def badgerIterator.Value (it : badgerIterator) :
    Option Bytes × badgerIterator :=
  if !it.valid then (none, it)
  else
    match it.Iterator.item with
    | some (_, .ok v) => (some v, it)
    | some (_, .error e) => (some [], { it with err := it.err ++ [e] })
    | none => (none, it)

/-- `func (it *badgerIterator) Release()`: closes the engine cursor;
the adapter's cached flags are left as they are. -/
def badgerIterator.Release (it : badgerIterator) : badgerIterator :=
  { it with Iterator := it.Iterator.close }

/-- `func (it *badgerIterator) Error() error`: nil when the record is
empty, otherwise the most recently recorded error
(`it.err[len(it.err)-1]`). -/
def badgerIterator.Error (it : badgerIterator) : Option GoError :=
  if it.err.length = 0 then none
  else it.err[it.err.length - 1]?

/-- Engine-side `badger.Iterator` with `Reverse: true`: entries in
descending key order; `Seek(t)` positions on the first entry (in
descending order) whose key is ≤ `t`, skipping every key greater than
`t`. -/
structure engineRevIter where
  entries : List (Bytes × ValRes)
  pos : Nat
  sought : Bool
deriving DecidableEq, Repr

/-- Reverse-mode `Iterator.Seek(target)`. -/
def engineRevIter.seek (it : engineRevIter) (target : Bytes) :
    engineRevIter :=
  { it with pos := it.entries.findIdx (fun e => keyLe e.1 target),
            sought := true }

/-- `Iterator.Next()` in reverse mode: advance to the next smaller
key. -/
def engineRevIter.next (it : engineRevIter) : engineRevIter :=
  if it.sought then { it with pos := it.pos + 1 } else it

def engineRevIter.valid (it : engineRevIter) : Bool :=
  it.sought && decide (it.pos < it.entries.length)

def engineRevIter.item (it : engineRevIter) : Option (Bytes × ValRes) :=
  if it.valid then it.entries[it.pos]? else none

/-- Entries of a reverse prefixed cursor: the matching keys in
descending lexicographic order. -/
def revScanEntries (s : Store) (pfx : Bytes) : List (Bytes × ValRes) :=
  (scanEntries s pfx).reverse

/-- Adapter reverse iterator (`badgerReverseIterator`). -/
structure badgerReverseIterator where
  Iterator : engineRevIter
  started : Bool
  valid : Bool
  err : List GoError
deriving DecidableEq, Repr

/-- `func NewReversePrefixIterator(b *BadgerDB, prefix []byte)`: a
fresh reverse cursor with `Prefix: prefix, Reverse: true`. -/
def NewReversePrefixIterator (b : BadgerDB) (pfx : Bytes) :
    badgerReverseIterator :=
  { Iterator := { entries := revScanEntries b.db pfx, pos := 0,
                  sought := false },
    started := false, valid := false, err := [] }

/-- `func (it *badgerReverseIterator) Next() bool`: the first call is
`it.Iterator.Seek([]byte{0xFF})` ("Start from the end of the
keyspace"), later calls advance; caches and returns `Valid()`. -/
def badgerReverseIterator.Next (it : badgerReverseIterator) :
    Bool × badgerReverseIterator :=
  let e := if !it.started then it.Iterator.seek [0xFF] else it.Iterator.next
  let v := e.valid
  (v, { it with Iterator := e, started := true, valid := v })

/-- `func (it *badgerReverseIterator) Key() []byte`: same guard as the
forward adapter. -/
def badgerReverseIterator.Key (it : badgerReverseIterator) :
    Option Bytes :=
  if !it.valid then none
  else it.Iterator.item.map Prod.fst

/-! ## Older badgerdb variant (src/unnamed/part_002) -/

/-- Adapter iterator of the older badgerdb file: no `started`/`valid`
bookkeeping, only the engine cursor and the error record.  (In that
file `Scan` also builds the cursor inside a `View` transaction that is
discarded before the iterator is returned; the model below charitably
ignores that lifetime problem and keeps the entries readable.) -/
structure badgerIteractor where
  iteractor : engineIter
  err : List GoError
deriving DecidableEq, Repr

/-- `func (b *badgerdb) Scan(prefix) zerokv.Iterator` of the older
variant: a fresh, never-rewound cursor. -/
def part002Scan (s : Store) (pfx : Bytes) : badgerIteractor :=
  { iteractor := { entries := scanEntries s pfx, pos := 0,
                   rewound := false, closed := false },
    err := [] }

/-- `func (it *badgerIteractor) Next() bool`: calls `Next()` then
returns `Valid()` — it never calls `Rewind`, so the cursor is never
positioned on the first entry. -/
def badgerIteractor.Next (it : badgerIteractor) :
    Bool × badgerIteractor :=
  let e := it.iteractor.next
  (e.valid, { it with iteractor := e })

/-- `func (it *badgerIteractor) Key() []byte`: calls
`Item().KeyCopy(nil)` with no validity guard; `Item()` is nil on an
unpositioned cursor, so the call dereferences nil. -/
def badgerIteractor.Key (it : badgerIteractor) : Outcome Bytes :=
  match it.iteractor.item with
  | some e => .ok e.1
  | none => .panics "invalid memory address or nil pointer dereference"

/-- `func (it *badgerIteractor) Value() []byte`: `Item().ValueCopy`
with no validity guard. -/
def badgerIteractor.Value (it : badgerIteractor) :
    Outcome Bytes × badgerIteractor :=
  match it.iteractor.item with
  | some (_, .ok v) => (.ok v, it)
  | some (_, .error e) => (.ok [], { it with err := it.err ++ [e] })
  | none =>
    (.panics "invalid memory address or nil pointer dereference", it)

/-- `func (it *badgerIteractor) Error() error`: returns
`it.err[len(it.err)-1]` with no emptiness check — on an empty record
the index is out of range. -/
def badgerIteractor.Error (it : badgerIteractor) :
    Outcome (Option GoError) :=
  match it.err[it.err.length - 1]? with
  | some e => .ok (some e)
  | none => .panics "index out of range"

/-! ## Observation harness: running an iterator -/

/-- Results of `fuel` successive `Next()` calls on the current forward
adapter. -/
def nextResults : Nat → badgerIterator → List Bool
  | 0, _ => []
  | n + 1, it =>
    let (b, it') := it.Next
    b :: nextResults n it'

/-- The adapter state after `n` successive `Next()` calls. -/
def iterAfter : Nat → badgerIterator → badgerIterator
  | 0, it => it
  | n + 1, it => iterAfter n it.Next.2

/-- Keys yielded by a forward scan loop
(`for it.Next() { it.Key() }`), with bounded fuel. -/
def collectFwd : Nat → badgerIterator → List Bytes
  | 0, _ => []
  | n + 1, it =>
    let (b, it') := it.Next
    if b then
      match it'.Key with
      | some k => k :: collectFwd n it'
      | none => collectFwd n it'
    else []

/-- Keys yielded by a reverse scan loop, with bounded fuel. -/
def collectRev : Nat → badgerReverseIterator → List Bytes
  | 0, _ => []
  | n + 1, it =>
    let (b, it') := it.Next
    if b then
      match it'.Key with
      | some k => k :: collectRev n it'
      | none => collectRev n it'
    else []

/-- Results of `fuel` successive `Next()` calls on the older adapter. -/
def nextResults002 : Nat → badgerIteractor → List Bool
  | 0, _ => []
  | n + 1, it =>
    let (b, it') := it.Next
    b :: nextResults002 n it'

/-! ## Helper lemmas about iterator evolution -/

/-- A freshly scanned forward adapter over entry list `es` (the shape
produced by `BadgerDB.Scan`). -/
def scanIter (es : List (Bytes × ValRes)) : badgerIterator :=
  { Iterator := { entries := es, pos := 0, rewound := false,
                  closed := false },
    started := false, valid := false, err := [] }

/-- The forward adapter state reached after at least one `Next()` call:
rewound engine cursor at position `p`, cached validity matching. -/
def startedIter (es : List (Bytes × ValRes)) (p : Nat)
    (errs : List GoError) : badgerIterator :=
  { Iterator := { entries := es, pos := p, rewound := true,
                  closed := false },
    started := true, valid := decide (p < es.length), err := errs }

lemma scan_eq_scanIter (b : BadgerDB) (pfx : Bytes) :
    b.Scan pfx = scanIter (scanEntries b.db pfx) := rfl

lemma scanIter_next (es : List (Bytes × ValRes)) :
    (scanIter es).Next = (decide (0 < es.length), startedIter es 0 []) :=
  rfl

lemma startedIter_next (es : List (Bytes × ValRes)) (p : Nat)
    (errs : List GoError) :
    (startedIter es p errs).Next =
      (decide (p + 1 < es.length), startedIter es (p + 1) errs) := rfl

lemma startedIter_Key_of_lt (es : List (Bytes × ValRes)) (p : Nat)
    (errs : List GoError) (h : p < es.length) :
    (startedIter es p errs).Key = some (es[p].1) := by
  simp [badgerIterator.Key, startedIter, engineIter.item, engineIter.valid,
    h, List.getElem?_eq_getElem]

lemma startedIter_Key_of_ge (es : List (Bytes × ValRes)) (p : Nat)
    (errs : List GoError) (h : ¬ p < es.length) :
    (startedIter es p errs).Key = none := by
  simp [badgerIterator.Key, startedIter, h]

lemma nextResults_startedIter (n : Nat) :
    ∀ (es : List (Bytes × ValRes)) (p : Nat) (errs : List GoError),
      nextResults n (startedIter es p errs) =
        (List.range' (p + 1) n).map (fun i => decide (i < es.length)) := by
  induction n with
  | zero => intro es p errs; rfl
  | succ n ih =>
    intro es p errs
    simp only [nextResults, startedIter_next, List.range'_succ,
      List.map_cons]
    exact congrArg _ (ih es (p + 1) errs)

lemma nextResults_scanIter (n : Nat) (es : List (Bytes × ValRes)) :
    nextResults n (scanIter es) =
      (List.range n).map (fun i => decide (i < es.length)) := by
  cases n with
  | zero => rfl
  | succ n =>
    simp only [nextResults, scanIter_next, nextResults_startedIter,
      List.range_eq_range', List.range'_succ, List.map_cons, Nat.zero_add]

lemma map_range_decide_lt (N m : Nat) :
    (List.range (N + m)).map (fun i => decide (i < N)) =
      List.replicate N true ++ List.replicate m false := by
  rw [List.range_add, List.map_append, List.map_map]
  congr 1
  · refine List.eq_replicate_iff.mpr ⟨by simp, ?_⟩
    intro b hb
    simp only [List.mem_map, List.mem_range] at hb
    obtain ⟨i, hi, rfl⟩ := hb
    simpa using hi
  · refine List.eq_replicate_iff.mpr ⟨by simp, ?_⟩
    intro b hb
    simp only [Function.comp, List.mem_map, List.mem_range] at hb
    obtain ⟨i, _, rfl⟩ := hb
    simp

lemma collectFwd_startedIter (n : Nat) :
    ∀ (es : List (Bytes × ValRes)) (p : Nat) (errs : List GoError),
      collectFwd n (startedIter es p errs) =
        ((es.drop (p + 1)).take n).map Prod.fst := by
  induction n with
  | zero => intro es p errs; simp [collectFwd]
  | succ n ih =>
    intro es p errs
    simp only [collectFwd, startedIter_next]
    by_cases h : p + 1 < es.length
    · rw [startedIter_Key_of_lt es (p + 1) errs h]
      rw [decide_eq_true h, if_pos rfl]
      rw [List.drop_eq_getElem_cons h, List.take_succ_cons, List.map_cons]
      exact congrArg _ (ih es (p + 1) errs)
    · rw [if_neg (by simp [h])]
      rw [List.drop_eq_nil_of_le (by omega)]
      rfl

lemma collectFwd_scanIter (n : Nat) (es : List (Bytes × ValRes)) :
    collectFwd n (scanIter es) = (es.take n).map Prod.fst := by
  cases n with
  | zero => rfl
  | succ n =>
    simp only [collectFwd, scanIter_next]
    cases es with
    | nil => rfl
    | cons a as =>
      rw [startedIter_Key_of_lt (a :: as) 0 [] (by simp)]
      rw [decide_eq_true (show 0 < (a :: as).length by simp), if_pos rfl]
      exact congrArg _ (collectFwd_startedIter n (a :: as) 0 [])

lemma iterAfter_startedIter (n : Nat) :
    ∀ (es : List (Bytes × ValRes)) (p : Nat) (errs : List GoError),
      iterAfter n (startedIter es p errs) = startedIter es (p + n) errs := by
  induction n with
  | zero => intro es p errs; rfl
  | succ n ih =>
    intro es p errs
    show iterAfter n (startedIter es p errs).Next.2 = _
    rw [startedIter_next]
    show iterAfter n (startedIter es (p + 1) errs) = _
    rw [ih]
    congr 1
    omega

lemma iterAfter_scanIter (n : Nat) (es : List (Bytes × ValRes)) :
    iterAfter (n + 1) (scanIter es) = startedIter es n [] := by
  show iterAfter n (scanIter es).Next.2 = _
  rw [scanIter_next]
  show iterAfter n (startedIter es 0 []) = _
  rw [iterAfter_startedIter]
  congr 1
  omega

lemma insertAsc_length (k : Bytes) (ks : List Bytes) :
    (insertAsc k ks).length = ks.length + 1 := by
  induction ks with
  | nil => rfl
  | cons x xs ih =>
    by_cases h : keyLe k x <;> simp [insertAsc, h, ih]

lemma sortAsc_length (ks : List Bytes) :
    (sortAsc ks).length = ks.length := by
  induction ks with
  | nil => rfl
  | cons x xs ih => simp [sortAsc, List.foldr] at ih ⊢
                    rw [insertAsc_length, ih]

/-- The number of entries a prefixed scan ranges over equals the number
of matching keys in the store. -/
lemma scanEntries_length (s : Store) (pfx : Bytes) :
    (scanEntries s pfx).length =
      ((s.map Prod.fst).filter (matchesPfx pfx)).length := by
  simp [scanEntries, sortAsc_length]

lemma storeGet_storePut (s : Store) (k v : Bytes) :
    storeGet (storePut s k v) k = some v := by
  simp [storePut, storeGet]

lemma storeDelete_absent (s : Store) (k : Bytes)
    (h : storeGet s k = none) : storeDelete s k = s := by
  induction s with
  | nil => rfl
  | cons e rest ih =>
    obtain ⟨k', v⟩ := e
    by_cases hk : k' = k
    · simp [storeGet, hk] at h
    · simp only [storeGet, hk, if_false] at h
      simp [storeDelete, hk, List.filter] at ih ⊢
      exact ih h

lemma getElem?_append_cons {α : Type} (l₁ l₂ : List α) (x : α) :
    (l₁ ++ x :: l₂)[l₁.length]? = some x := by
  rw [List.getElem?_append_right (Nat.le_refl _)]
  simp

/-! ## Claims -/

/-- C1 (corrected).  The claim says that after a successful `Commit`,
any subsequent `Put`, `Delete`, or `Commit` on that batch returns a
`ProtocolViolation` error, never succeeds and never crashes, on every
backend.  The code has no such normalization: on the Badger backend
the engine's discarded-transaction error is passed through (an error
return, never a success, never a panic — the nearby true statement),
but on the Pebble backend every post-commit batch operation panics
(see `C1_counterexample`), and neither adapter intercepts or
translates anything. -/
theorem C1_batch_after_commit :
    (∀ (ops : List BatchOp) (s s' : Store) (k v : Bytes) (ctx : Ctx),
      let c := badgerBatch.Commit ⟨⟨ops, false⟩⟩ .live s
      c.1 = .ok () ∧
      (c.2.1.Put k v).1 = .err .discardedTxn ∧
      (c.2.1.Put k v).2 = c.2.1 ∧
      (c.2.1.Delete k).1 = .err .discardedTxn ∧
      (c.2.1.Delete k).2 = c.2.1 ∧
      (c.2.1.Commit ctx s').1 ≠ .ok () ∧
      (¬ ∃ m, (c.2.1.Commit ctx s').1 = .panics m) ∧
      (c.2.1.Commit ctx s').2.2 = s') ∧
    (∀ (ops : List BatchOp) (s s' : Store) (k v : Bytes) (ctx : Ctx),
      let pc := pebbleBatch.Commits ⟨ops, false⟩ .live s
      pc.1 = .ok () ∧
      (pc.2.1.Put k v).1 = .panics "pebble: batch already committed" ∧
      (pc.2.1.Delete k).1 = .panics "pebble: batch already committed" ∧
      (pc.2.1.Commits ctx s').1 =
        .panics "pebble: batch already committed") := by
  constructor
  · intro ops s s' k v ctx
    cases ctx <;>
      simp [badgerBatch.Commit, badgerBatch.Put, badgerBatch.Delete,
        badgerWriteBatch.flush, badgerWriteBatch.set, badgerWriteBatch.del,
        Ctx.errOf]
  · intro ops s s' k v ctx
    cases ctx <;>
      simp [pebbleBatch.Commits, pebbleBatch.Put, pebbleBatch.Delete]

/-- C1 counterexample: on the Pebble backend, a `Put` after a
successful commit panics — it does not return a recoverable
`ProtocolViolation` outcome, so the claim's "never crashes the
process, on every backend" is false. -/
theorem C1_counterexample :
    ((((pebbledb.Batch ⟨[]⟩).Commits .live []).2.1).Put [0] [1]).1 =
      Outcome.panics "pebble: batch already committed" := rfl

/-- C2 (code bug).  The claim — every operation taking a context
returns `Cancelled` immediately with no side effect when the context
is already cancelled — holds on the Badger backend (every conjunct of
the first clause), but the Pebble backend ignores its context
parameter entirely: with an already-cancelled context, `Put` on an
empty store succeeds and mutates the store (final conjuncts), which
contradicts the repository's own API documentation ("All operations
check context at the start"). -/
theorem C2_cancellation_check :
    (∀ (b : BadgerDB) (bb : badgerBatch) (k v : Bytes) (s : Store),
      b.Put .canceled k v = (.err .ctxCanceled, b) ∧
      b.Get .canceled k = .err .ctxCanceled ∧
      b.Delete .canceled k = (.err .ctxCanceled, b) ∧
      bb.Commit .canceled s = (.err .ctxCanceled, bb, s)) ∧
    (∀ (p : pebbledb) (k v : Bytes),
      p.Put .canceled k v = p.Put .live k v ∧
      p.Get .canceled k = p.Get .live k ∧
      p.Delete .canceled k = p.Delete .live k) ∧
    (pebbledb.Put ⟨[]⟩ .canceled [0] [1]).1 = .ok () ∧
    (pebbledb.Put ⟨[]⟩ .canceled [0] [1]).2 ≠ (⟨[]⟩ : pebbledb) := by
  refine ⟨fun b bb k v s => ⟨rfl, rfl, rfl, rfl⟩,
    fun p k v => ⟨rfl, rfl, rfl⟩, rfl, by decide⟩

/-- C3 (code bug).  The claim — `Error()` is safe from any state and
returns nil when no retrieval failure was recorded — holds for the
current `badgerIterator` (second conjunct: nil after any number of
`Next` calls on any scan, including a never-advanced iterator), but
the older variant's `badgerIteractor.Error` indexes
`err[len(err)-1]` without an emptiness check and panics on a fresh
iterator with an empty error record (first conjunct). -/
theorem C3_error_empty_record :
    badgerIteractor.Error (part002Scan [([0], [1])] []) =
      .panics "index out of range" ∧
    (∀ (b : BadgerDB) (pfx : Bytes) (n : Nat),
      badgerIterator.Error (iterAfter n (b.Scan pfx)) = none) := by
  refine ⟨rfl, ?_⟩
  intro b pfx n
  rw [scan_eq_scanIter]
  cases n with
  | zero => rfl
  | succ n =>
    rw [iterAfter_scanIter]
    simp [badgerIterator.Error, startedIter]

/-- C4 (code bug).  The claim — outside `Positioned`, `Key()` and
`Value()` return the null sentinel, never panicking — holds for the
current `badgerIterator` in `NotStarted` (third conjunct) and
`Exhausted` (fourth conjunct), but the older variant's
`badgerIteractor.Key`/`Value` call `Item()` with no validity guard
and dereference a nil item on a not-yet-positioned iterator (first
two conjuncts). -/
theorem C4_null_sentinel_outside_positioned :
    badgerIteractor.Key (part002Scan [([0], [1])] []) =
      .panics "invalid memory address or nil pointer dereference" ∧
    (badgerIteractor.Value (part002Scan [([0], [1])] [])).1 =
      .panics "invalid memory address or nil pointer dereference" ∧
    (∀ (b : BadgerDB) (pfx : Bytes),
      (b.Scan pfx).Key = none ∧ ((b.Scan pfx).Value).1 = none) ∧
    (∀ (b : BadgerDB) (pfx : Bytes) (m : Nat),
      (iterAfter ((scanEntries b.db pfx).length + 1 + m)
        (b.Scan pfx)).Key = none) := by
  refine ⟨rfl, rfl, fun b pfx => ⟨rfl, rfl⟩, ?_⟩
  intro b pfx m
  rw [scan_eq_scanIter,
    show (scanEntries b.db pfx).length + 1 + m =
      ((scanEntries b.db pfx).length + m) + 1 by omega,
    iterAfter_scanIter]
  exact startedIter_Key_of_ge _ _ _ (by omega)

/-- C5 (confirmed).  On both backends, `Put(k,v)` with a live context
followed by `Get(k)` on the resulting store succeeds and returns
exactly `v`. -/
theorem C5_put_get_roundtrip :
    ∀ (b : BadgerDB) (p : pebbledb) (k v : Bytes),
      (b.Put .live k v).1 = .ok () ∧
      ((b.Put .live k v).2.Get .live k) = .ok v ∧
      (p.Put .live k v).1 = .ok () ∧
      ((p.Put .live k v).2.Get .live k) = .ok v := by
  intro b p k v
  refine ⟨rfl, ?_, rfl, ?_⟩ <;>
    simp [BadgerDB.Put, BadgerDB.Get, pebbledb.Put, pebbledb.Get,
      Ctx.errOf, storeGet_storePut]

/-- C6 (code bug).  The claim — a scan over exactly N matching keys
yields `Next()==true` exactly N times, in order, then false forever —
holds for the current `badgerIterator`: over any store and prefix,
N+m `Next` calls return N `true`s followed by m `false`s, the keys
yielded are exactly the matching entries in scan order, and N is the
number of matching keys (first three conjuncts).  The older variant's
`badgerIteractor.Next` never calls `Rewind`, so with exactly one
matching key its first `Next()` already returns false and every key
is missed (last two conjuncts). -/
theorem C6_scan_exhaustion :
    (∀ (b : BadgerDB) (pfx : Bytes) (m : Nat),
      nextResults ((scanEntries b.db pfx).length + m) (b.Scan pfx) =
        List.replicate (scanEntries b.db pfx).length true ++
          List.replicate m false) ∧
    (∀ (b : BadgerDB) (pfx : Bytes) (m : Nat),
      collectFwd ((scanEntries b.db pfx).length + m) (b.Scan pfx) =
        (scanEntries b.db pfx).map Prod.fst) ∧
    (∀ (s : Store) (pfx : Bytes),
      (scanEntries s pfx).length =
        ((s.map Prod.fst).filter (matchesPfx pfx)).length) ∧
    (scanEntries [([0], [1])] []).length = 1 ∧
    nextResults002 2 (part002Scan [([0], [1])] []) = [false, false] := by
  refine ⟨?_, ?_, scanEntries_length, by decide, by decide⟩
  · intro b pfx m
    rw [scan_eq_scanIter, nextResults_scanIter, map_range_decide_lt]
  · intro b pfx m
    rw [scan_eq_scanIter, collectFwd_scanIter,
      List.take_of_length_le (by omega)]

/-- C7 (code bug).  The claim — the reverse-scan key sequence equals
the forward-scan key sequence reversed, for every key set and prefix
— fails: `badgerReverseIterator.Next` starts with
`Seek([]byte{0xFF})`, and a reverse-mode seek lands on the largest
key ≤ the target, so every key lexicographically greater than the
single byte 0xFF is skipped.  With the store holding exactly the key
[0xFF, 0x01], the forward scan yields that key but the reverse scan
yields nothing (the comment "Start from the end of the keyspace"
shows the intent the code misses).  The last two conjuncts show the
model's reverse scan does produce the reversed forward sequence for
keys below the seek target. -/
theorem C7_reverse_scan_asymmetry :
    collectFwd 2 (BadgerDB.Scan ⟨[([255, 1], [7])]⟩ []) = [[255, 1]] ∧
    collectRev 2 (NewReversePrefixIterator ⟨[([255, 1], [7])]⟩ []) = [] ∧
    collectRev 2 (NewReversePrefixIterator ⟨[([255, 1], [7])]⟩ []) ≠
      (collectFwd 2 (BadgerDB.Scan ⟨[([255, 1], [7])]⟩ [])).reverse ∧
    collectFwd 3 (BadgerDB.Scan ⟨[([1], [1]), ([2], [2])]⟩ []) =
      [[1], [2]] ∧
    collectRev 3 (NewReversePrefixIterator ⟨[([1], [1]), ([2], [2])]⟩ []) =
      [[2], [1]] := by
  refine ⟨by decide, by decide, by decide, by decide, by decide⟩

/-- C8 (confirmed).  Deleting an absent key with a live context
returns success and leaves the store unchanged on both backends, and
repeating the delete any number of times is still a no-op. -/
theorem C8_delete_absent_noop :
    ∀ (b : BadgerDB) (p : pebbledb) (k : Bytes),
      storeGet b.db k = none → storeGet p.db k = none →
      (b.Delete .live k) = (.ok (), b) ∧
      (∀ n : Nat, (fun st : BadgerDB => (st.Delete .live k).2)^[n] b = b) ∧
      (p.Delete .live k) = (.ok (), p) ∧
      (∀ n : Nat, (fun st : pebbledb => (st.Delete .live k).2)^[n] p = p) := by
  intro b p k hb hp
  have h1 : b.Delete .live k = (.ok (), b) := by
    simp [BadgerDB.Delete, Ctx.errOf, storeDelete_absent _ _ hb]
  have h2 : p.Delete .live k = (.ok (), p) := by
    simp [pebbledb.Delete, storeDelete_absent _ _ hp]
  refine ⟨h1, fun n => ?_, h2, fun n => ?_⟩
  · exact Function.iterate_fixed (congrArg Prod.snd h1) n
  · exact Function.iterate_fixed (congrArg Prod.snd h2) n

/-- C8 witness: a concrete store without the key [2]; deleting it
succeeds and changes nothing. -/
theorem C8_witness :
    storeGet ([([0], [1])] : Store) [2] = none ∧
    ((⟨[([0], [1])]⟩ : BadgerDB).Delete .live [2]) =
      (.ok (), ⟨[([0], [1])]⟩) := by
  refine ⟨by decide, ?_⟩
  exact (C8_delete_absent_noop ⟨[([0], [1])]⟩ ⟨[]⟩ [2]
    (by decide) (by decide)).1

/-- C9 (confirmed).  The Pebble backend's `Scan` returns the nil
iterator for every prefix, so no Pebble-backed scan can yield any
entry, and calling any method on the returned interface value
dereferences nil. -/
theorem C9_pebble_scan_nil :
    ∀ (p : pebbledb) (pfx : Bytes) (f : pebbleIterator → Bool),
      pebbledb.Scan p pfx = none ∧
      callMethod (pebbledb.Scan p pfx) f =
        .panics "invalid memory address or nil pointer dereference" :=
  fun _ _ _ => ⟨rfl, rfl⟩

/-- C10 (confirmed).  On the current Badger iterator, positioned on an
entry whose value retrieval fails with `e`, `Value()` returns the
non-nil empty slice (`some []`, not the nil sentinel `none`), records
the failure, and a subsequent `Error()` returns exactly that most
recently recorded failure. -/
theorem C10_value_failure_records_error :
    ∀ (pre post : List (Bytes × ValRes)) (k : Bytes) (e : GoError)
      (errs : List GoError),
      ((startedIter (pre ++ (k, Except.error e) :: post)
          pre.length errs).Value).1 = some [] ∧
      ((startedIter (pre ++ (k, Except.error e) :: post)
          pre.length errs).Value).1 ≠ none ∧
      (((startedIter (pre ++ (k, Except.error e) :: post)
          pre.length errs).Value).2).err = errs ++ [e] ∧
      badgerIterator.Error (((startedIter (pre ++ (k, Except.error e) :: post)
          pre.length errs).Value).2) = some e := by
  intro pre post k e errs
  have hlt : pre.length < (pre ++ (k, Except.error e) :: post).length := by
    simp
  have hvalid : (startedIter (pre ++ (k, Except.error e) :: post)
      pre.length errs).valid = true := by
    simp [startedIter, hlt]
  have hitem : (startedIter (pre ++ (k, Except.error e) :: post)
      pre.length errs).Iterator.item = some (k, Except.error e) := by
    simp only [startedIter, engineIter.item, engineIter.valid, Bool.true_and]
    rw [decide_eq_true hlt, if_pos rfl]
    exact getElem?_append_cons _ _ _
  have hVal : (startedIter (pre ++ (k, Except.error e) :: post)
        pre.length errs).Value =
      (some [], { startedIter (pre ++ (k, Except.error e) :: post)
        pre.length errs with err := errs ++ [e] }) := by
    simp only [badgerIterator.Value, hvalid, hitem, Bool.not_true]
    rw [if_neg (show ¬((false : Bool) = true) by decide)]
    simp [startedIter]
  rw [hVal]
  refine ⟨rfl, by simp, rfl, ?_⟩
  simp [badgerIterator.Error, startedIter, getElem?_append_cons]

end ZeroKV
